import Mathlib

set_option linter.unusedVariables false

/-! Shallow embedding of the DNS zone-transfer engine (`xfr.go`): the
envelope streaming data model, the inbound AXFR and IXFR state machines,
the authenticated message channel (`ReadMsg`/`WriteMsg`), the outbound
engine (`Out`), and the entry point (`In`). -/

/-- Record type code for SOA (`TypeSOA`). -/
def typeSOA : Nat := 6

/-- Record type code for AXFR queries (`TypeAXFR`). -/
def typeAXFR : Nat := 252

/-- Record type code for IXFR queries (`TypeIXFR`). -/
def typeIXFR : Nat := 251

/-- A resource record: either a concrete SOA record carrying its serial
(the dynamic type `*SOA`), or any other record carrying its header type
code. -/
inductive RR where
  | soa (serial : Nat)
  | other (rrtype : Nat)
  deriving DecidableEq, Repr

/-- Header type code of a record (`r.Header().Rrtype`). -/
def RR.rrtype : RR → Nat
  | .soa _ => typeSOA
  | .other t => t

/-- Type assertion to a concrete SOA record (`r.(*SOA)`), returning its
serial when the record really is a `*SOA`. -/
def RR.asSOA : RR → Option Nat
  | .soa s => some s
  | .other _ => none

/-- A TSIG record, identified by its key (zone) name (`ts.Hdr.Name`). -/
structure Tsig where
  name : String
  deriving DecidableEq, Repr

/-- A DNS message, restricted to the fields the transfer engine touches:
transaction id, question-section type codes, answer section, and the
optional TSIG record (`m.IsTsig()`). -/
structure Msg where
  id : Nat
  question : List Nat
  answer : List RR
  tsig : Option Tsig
  deriving DecidableEq, Repr

/-- The closed set of sentinel errors the engine produces or forwards. -/
inductive Err where
  | errId
  | errSoa
  | errSecret
  | errSig
  | transport
  | codec
  deriving DecidableEq, Repr

/-- `Envelope` is the unit of the streaming interface: a batch of records
plus an optional error. -/
structure Envelope where
  rr : List RR
  error : Option Err
  deriving DecidableEq, Repr

/-- `isSOAFirst` from the source: the answer section is nonempty and its
first record's header type is SOA. -/
def isSOAFirst (m : Msg) : Bool :=
  match m.answer.head? with
  | some r => r.rrtype == typeSOA
  | none => false

/-- `isSOALast` from the source: the answer section is nonempty and its
last record's header type is SOA. -/
def isSOALast (m : Msg) : Bool :=
  match m.answer.getLast? with
  | some r => r.rrtype == typeSOA
  | none => false

/-- The possible shapes of a `ReadMsg` result `(*Msg, error)`: success
`(m, nil)`; `(nil, err)` for a transport or decode failure; `(m, err)` for
a TSIG failure on a decoded message. -/
inductive ReadResult where
  | ok (m : Msg)
  | failNil (e : Err)
  | failMsg (m : Msg) (e : Err)
  deriving DecidableEq, Repr

/-- Observable events of an inbound state-machine run, in order: setting a
read deadline before a read, sending an envelope on the stream, closing
the stream (`close(c)`), closing the connection (`t.Close()`), and a
runtime panic. -/
inductive Ev where
  | setReadDeadline
  | emit (e : Envelope)
  | closeStream
  | closeConn
  | panicEv
  deriving DecidableEq, Repr

/-- Result of running an inbound state machine on a list of read results:
the ordered event trace, the session's `tsigTimersOnly` flag afterwards,
whether the loop exited (`done = false` means it consumed all supplied
reads and is blocked waiting for the next one), and whether it panicked. -/
structure Run where
  events : List Ev
  ton : Bool
  done : Bool
  panicked : Bool
  deriving DecidableEq, Repr

/-- `inAxfr` from the source, as a function of the remaining read results.
State: `first` and the session's `tsigTimersOnly` flag `ton`. Each
iteration sets a read deadline, reads, and mirrors the source's checks;
`defer close(c)` then `defer t.Close()` run in that (LIFO) order on
return. -/
def inAxfr (id : Nat) : Bool → Bool → List ReadResult → Run
  | _, ton, [] => ⟨[], ton, false, false⟩
  | first, ton, r :: rs =>
    match r with
    | .failNil e =>
      ⟨[.setReadDeadline, .emit ⟨[], some e⟩, .closeStream, .closeConn], ton, true, false⟩
    | .failMsg _ e =>
      ⟨[.setReadDeadline, .emit ⟨[], some e⟩, .closeStream, .closeConn], ton, true, false⟩
    | .ok m =>
      if m.id ≠ id then
        ⟨[.setReadDeadline, .emit ⟨m.answer, some .errId⟩, .closeStream, .closeConn], ton, true, false⟩
      else if first then
        if !isSOAFirst m then
          ⟨[.setReadDeadline, .emit ⟨m.answer, some .errSoa⟩, .closeStream, .closeConn], ton, true, false⟩
        else if m.answer.length = 1 then
          let k := inAxfr id false true rs
          ⟨.setReadDeadline :: .emit ⟨m.answer, none⟩ :: k.events, k.ton, k.done, k.panicked⟩
        else
          if isSOALast m then
            ⟨[.setReadDeadline, .emit ⟨m.answer, none⟩, .closeStream, .closeConn], true, true, false⟩
          else
            let k := inAxfr id false true rs
            ⟨.setReadDeadline :: .emit ⟨m.answer, none⟩ :: k.events, k.ton, k.done, k.panicked⟩
      else
        if isSOALast m then
          ⟨[.setReadDeadline, .emit ⟨m.answer, none⟩, .closeStream, .closeConn], true, true, false⟩
        else
          let k := inAxfr id false true rs
          ⟨.setReadDeadline :: .emit ⟨m.answer, none⟩ :: k.events, k.ton, k.done, k.panicked⟩

/-- Decision taken by the IXFR streaming block on one message: indexing
`in.Answer[len(in.Answer)-1]` of an empty answer section panics; a trailing
`*SOA` whose serial equals the recorded one terminates; anything else
continues. -/
inductive StreamDec where
  | panicDec
  | terminal
  | goOn
  deriving DecidableEq, Repr

/-- The IXFR streaming test on one message, given the recorded serial. -/
def ixfrStreamDec (serial : Nat) (m : Msg) : StreamDec :=
  match m.answer.getLast? with
  | none => .panicDec
  | some rl =>
    match rl.asSOA with
    | some s => if s = serial then .terminal else .goOn
    | none => .goOn

/-- `inIxfr` from the source, as a function of the remaining read results.
State: `first`, the session's `tsigTimersOnly` flag `ton`, and the
recorded `serial`. On a read failure with a nil message the source
dereferences `in.Answer` and panics (the deferred `close(c)` and
`t.Close()` still run, then the panic propagates). -/
def inIxfr (id : Nat) : Bool → Bool → Nat → List ReadResult → Run
  | _, ton, _, [] => ⟨[], ton, false, false⟩
  | first, ton, serial, r :: rs =>
    match r with
    | .failNil _ =>
      ⟨[.setReadDeadline, .closeStream, .closeConn, .panicEv], ton, true, true⟩
    | .failMsg m e =>
      ⟨[.setReadDeadline, .emit ⟨m.answer, some e⟩, .closeStream, .closeConn], ton, true, false⟩
    | .ok m =>
      if m.id ≠ id then
        ⟨[.setReadDeadline, .emit ⟨m.answer, some .errId⟩, .closeStream, .closeConn], ton, true, false⟩
      else if first then
        if m.answer.length = 1 ∧ isSOAFirst m then
          ⟨[.setReadDeadline, .emit ⟨m.answer, none⟩, .closeStream, .closeConn], ton, true, false⟩
        else if !isSOAFirst m then
          ⟨[.setReadDeadline, .emit ⟨m.answer, some .errSoa⟩, .closeStream, .closeConn], ton, true, false⟩
        else
          match m.answer.head? with
          | none =>
            ⟨[.setReadDeadline, .closeStream, .closeConn, .panicEv], ton, true, true⟩
          | some r0 =>
            match r0.asSOA with
            | none =>
              ⟨[.setReadDeadline, .closeStream, .closeConn, .panicEv], ton, true, true⟩
            | some s0 =>
              match ixfrStreamDec s0 m with
              | .panicDec => ⟨[.setReadDeadline, .closeStream, .closeConn, .panicEv], true, true, true⟩
              | .terminal => ⟨[.setReadDeadline, .emit ⟨m.answer, none⟩, .closeStream, .closeConn], true, true, false⟩
              | .goOn =>
                let k := inIxfr id false true s0 rs
                ⟨.setReadDeadline :: .emit ⟨m.answer, none⟩ :: k.events, k.ton, k.done, k.panicked⟩
      else
        match ixfrStreamDec serial m with
        | .panicDec => ⟨[.setReadDeadline, .closeStream, .closeConn, .panicEv], true, true, true⟩
        | .terminal => ⟨[.setReadDeadline, .emit ⟨m.answer, none⟩, .closeStream, .closeConn], true, true, false⟩
        | .goOn =>
          let k := inIxfr id false true serial rs
          ⟨.setReadDeadline :: .emit ⟨m.answer, none⟩ :: k.events, k.ton, k.done, k.panicked⟩

/-- The envelopes appearing in an event trace, in order. -/
def emitted (evs : List Ev) : List Envelope :=
  evs.filterMap fun e =>
    match e with
    | .emit x => some x
    | _ => none

example :
    inAxfr 1 true false
      [.ok ⟨1, [], [.soa 5], none⟩, .ok ⟨1, [], [.other 1, .soa 5], none⟩]
      = ⟨[.setReadDeadline, .emit ⟨[.soa 5], none⟩,
          .setReadDeadline, .emit ⟨[.other 1, .soa 5], none⟩,
          .closeStream, .closeConn], true, true, false⟩ := by
  decide

example :
    (inIxfr 1 true false 0 [.failNil .transport]).panicked = true := by
  decide

/-- Modelled from the spec: the TSIG chaining MAC, as a symbolic value.
`tsig.go` is not part of the repository slice; the spec describes the
primitive only as `generate(bytes, secret, priorMAC, timersOnly) ->
(signedBytes, newMAC, error)`. A derived MAC records the exact inputs of
the generation step. -/
inductive MAC where
  | start
  | derived (m : Msg) (secret : String) (prev : MAC) (ton : Bool)
  deriving DecidableEq, Repr

/-- Modelled from the spec: the raw bytes of one framed wire message.
`msg.go`'s codec is not part of the repository slice; bytes are kept
symbolic: either a plain encoding of a message, or a TSIG-signed encoding
recording the generation inputs. -/
inductive Bytes where
  | packed (m : Msg)
  | signed (m : Msg) (secret : String) (mac : MAC) (ton : Bool)
  deriving DecidableEq, Repr

/-- Modelled from the spec: `m.Pack()`, the message codec's encoder. -/
def pack (m : Msg) : Bytes := .packed m

/-- Modelled from the spec: `m.Unpack(p)`, the message codec's decoder;
it recovers the encoded message (for signed bytes, the message whose
encoding was signed). -/
def unpack : Bytes → Msg
  | .packed m => m
  | .signed m _ _ _ => m

/-- Modelled from the spec: `TsigGenerate(m, secret, requestMAC,
timersOnly)` returns the signed wire bytes and the new running MAC. -/
def TsigGenerate (m : Msg) (secret : String) (mac : MAC) (ton : Bool) :
    Bytes × MAC :=
  (.signed m secret mac ton, .derived m secret mac ton)

/-- Modelled from the spec: `TsigVerify(p, secret, requestMAC,
timersOnly)` succeeds exactly when the raw bytes were signed with the
same secret, prior MAC, and timers-only flag. -/
def TsigVerify (b : Bytes) (secret : String) (mac : MAC) (ton : Bool) :
    Option Err :=
  match b with
  | .packed _ => some .errSig
  | .signed _ s mc t =>
    if s = secret ∧ mc = mac ∧ t = ton then none else some .errSig

/-- The session state the authenticated channel reads and writes: the
`TsigSecret` table (`none` models a nil map), the running
`tsigRequestMAC`, and the `tsigTimersOnly` flag. -/
structure Session where
  secrets : Option (List (String × String))
  mac : MAC
  ton : Bool
  deriving DecidableEq, Repr

/-- Connection operations performed by the authenticated channel. -/
inductive ConnEv where
  | setReadDeadlineOp
  | setWriteDeadlineOp
  | writeOp (b : Bytes)
  deriving DecidableEq, Repr

/-- `ReadMsg` from the source, on one successfully transported and decoded
framed unit: decode, then, when the message carries a TSIG record and a
secret table is configured, require an entry for the TSIG's zone name
(absence returns `ErrSecret` alongside the message) and otherwise verify
the raw bytes against the session's MAC and timers-only flag. The session
is not modified by a read. -/
def ReadMsg (s : Session) (input : Bytes) : Option Msg × Option Err :=
  let m := unpack input
  match m.tsig, s.secrets with
  | some ts, some tbl =>
    match tbl.lookup ts.name with
    | none => (some m, some .errSecret)
    | some secret => (some m, TsigVerify input secret s.mac s.ton)
  | _, _ => (some m, none)

/-- `WriteMsg` from the source: when the message carries a TSIG record and
a secret table is configured, a missing entry for the TSIG's zone name
returns `ErrSecret` before anything is written or the MAC updated;
otherwise the message is signed (updating `tsigRequestMAC`) or plainly
packed, and the bytes are written. Returns the error, the session
afterwards, and the connection operations performed. -/
def WriteMsg (s : Session) (m : Msg) : Option Err × Session × List ConnEv :=
  match m.tsig, s.secrets with
  | some ts, some tbl =>
    match tbl.lookup ts.name with
    | none => (some .errSecret, s, [])
    | some secret =>
      let g := TsigGenerate m secret s.mac s.ton
      (none, { s with mac := g.2 }, [.writeOp g.1])
  | _, _ => (none, s, [.writeOp (pack m)])

/-- The background behavior started by `In` after a successful dial and
initial write: the goroutine inspects `q.Question[0].Qtype` and starts
`inAxfr`, starts `inIxfr`, or starts nothing (leaving the stream idle and
the connection open). An empty question section would make the goroutine
panic on the index. -/
def inRun (ton0 : Bool) (q : Msg) (reads : List ReadResult) : Run :=
  match q.question.head? with
  | some qt =>
    if qt = typeAXFR then inAxfr q.id true ton0 reads
    else if qt = typeIXFR then inIxfr q.id true ton0 0 reads
    else ⟨[], ton0, false, false⟩
  | none => ⟨[.panicEv], ton0, true, true⟩

/-- `In` from the source: dial within the dial timeout (failure returned
synchronously), write the query (failure returned synchronously), then
return the envelope stream together with a nil error, the stream's
subsequent behavior being `inRun`. -/
def In (ton0 : Bool) (q : Msg) (dialOk writeOk : Bool)
    (reads : List ReadResult) : Option Err × Option Run :=
  if !dialOk then (some .transport, none)
  else if !writeOk then (some .transport, none)
  else (none, some (inRun ton0 q reads))

/-- Result of a run of the outbound engine: the answer sections of the
messages successfully written through the response writer, whether
`TsigTimersOnly(true)` was invoked on the writer, the reply's answer
buffer afterwards, and whether the engine closed the connection. -/
structure OutResult where
  written : List (List RR)
  tonSet : Bool
  answer : List RR
  connClosed : Bool
  deriving Repr

/-- The loop of `Out` from the source: for each envelope, append its
records to the accumulated answer section and write the reply as one
message; a failed write (`wok k = false` for the k-th write) makes the
goroutine return at once. Returns the written answer sections, whether
the source was drained without a write failure, and the final accumulated
answer section. -/
def outLoop (wok : Nat → Bool) : List RR → Nat → List Envelope →
    List (List RR) × Bool × List RR
  | acc, _, [] => ([], true, acc)
  | acc, i, e :: es =>
    let acc2 := acc ++ e.rr
    if wok i then
      let k := outLoop wok acc2 (i + 1) es
      (acc2 :: k.1, k.2.1, k.2.2)
    else ([], false, acc2)

/-- `Out` from the source: drain the envelope source; when it is exhausted
(and no write failed first) switch the response writer to timers-only
signing and clear the accumulated answer buffer. The connection is never
closed by the engine. -/
def Out (wok : Nat → Bool) (envs : List Envelope) : OutResult :=
  let k := outLoop wok [] 0 envs
  { written := k.1
    tonSet := k.2.1
    answer := if k.2.1 then [] else k.2.2
    connClosed := false }

example :
    (Out (fun _ => true) [⟨[.soa 5], none⟩, ⟨[.other 1], none⟩]).written
      = [[.soa 5], [.soa 5, .other 1]] := by
  decide

/-- The AXFR termination test in streaming state at position `j` of a
message list: the message exists and its last record's type is SOA. -/
def axfrStreamStopsAt (ms : List Msg) (j : Nat) : Bool :=
  match ms[j]? with
  | some m => isSOALast m
  | none => false

/-- The AXFR termination test at position `j` counting from the first
message: trailing SOA, except that a first message with a single record
is guarded and never terminates. -/
def axfrStopsAt (ms : List Msg) (j : Nat) : Bool :=
  match ms[j]? with
  | some m => isSOALast m && !(decide (j = 0) && decide (m.answer.length = 1))
  | none => false

/-- The trailing record of `m` is a concrete SOA whose serial equals
`serial`. -/
def ixfrLastMatches (serial : Nat) (m : Msg) : Bool :=
  match m.answer.getLast? with
  | some r =>
    match r.asSOA with
    | some s => decide (s = serial)
    | none => false
  | none => false

/-- The IXFR termination test in streaming state at position `j`. -/
def ixfrStreamStopsAt (s0 : Nat) (ms : List Msg) (j : Nat) : Bool :=
  match ms[j]? with
  | some m => ixfrLastMatches s0 m
  | none => false

/-- The IXFR termination test at position `j` counting from the first
message: the no-change case (single answer record) at position 0, or a
trailing SOA whose serial equals the opening serial `s0`. -/
def ixfrStopsAt (s0 : Nat) (ms : List Msg) (j : Nat) : Bool :=
  match ms[j]? with
  | some m => (decide (j = 0) && decide (m.answer.length = 1)) || ixfrLastMatches s0 m
  | none => false

/-- Recognizer for the stream-close event. -/
def isCloseStream : Ev → Bool
  | .closeStream => true
  | _ => false

/-- Recognizer for the connection-close event. -/
def isCloseConn : Ev → Bool
  | .closeConn => true
  | _ => false

/-- Both closes occur in the trace and the stream close comes first. -/
def streamThenConn (evs : List Ev) : Bool :=
  evs.any isCloseStream && evs.any isCloseConn &&
    decide (evs.findIdx isCloseStream < evs.findIdx isCloseConn)

/-- Both closes occur in the trace and the connection close comes first. -/
def connThenStream (evs : List Ev) : Bool :=
  evs.any isCloseStream && evs.any isCloseConn &&
    decide (evs.findIdx isCloseConn < evs.findIdx isCloseStream)

@[simp]
theorem emitted_nil : emitted [] = [] := rfl

@[simp]
theorem emitted_cons_setRD (l : List Ev) :
    emitted (.setReadDeadline :: l) = emitted l := rfl

@[simp]
theorem emitted_cons_emit (x : Envelope) (l : List Ev) :
    emitted (.emit x :: l) = x :: emitted l := rfl

@[simp]
theorem emitted_cons_closeStream (l : List Ev) :
    emitted (.closeStream :: l) = emitted l := rfl

@[simp]
theorem emitted_cons_closeConn (l : List Ev) :
    emitted (.closeConn :: l) = emitted l := rfl

@[simp]
theorem emitted_cons_panic (l : List Ev) :
    emitted (.panicEv :: l) = emitted l := rfl

theorem streamThenConn_cons (e : Ev) (l : List Ev)
    (h1 : isCloseStream e = false) (h2 : isCloseConn e = false) :
    streamThenConn (e :: l) = streamThenConn l := by
  simp [streamThenConn, List.findIdx_cons, List.any_cons, h1, h2]

@[simp]
theorem streamThenConn_cons_setRD (l : List Ev) :
    streamThenConn (.setReadDeadline :: l) = streamThenConn l :=
  streamThenConn_cons _ _ rfl rfl

@[simp]
theorem streamThenConn_cons_emit (x : Envelope) (l : List Ev) :
    streamThenConn (.emit x :: l) = streamThenConn l :=
  streamThenConn_cons _ _ rfl rfl

@[simp]
theorem streamThenConn_close_pair :
    streamThenConn [.closeStream, .closeConn] = true := by
  decide

@[simp]
theorem streamThenConn_close_panic :
    streamThenConn [.closeStream, .closeConn, .panicEv] = true := by
  decide

/-- Helper: every returning exit of `inAxfr` closes the stream and then
the connection, in that order. -/
theorem inAxfr_closes (id : Nat) (first ton : Bool) (rs : List ReadResult)
    (h : (inAxfr id first ton rs).done = true) :
    streamThenConn (inAxfr id first ton rs).events = true := by
  induction rs generalizing first ton with
  | nil => simp [inAxfr] at h
  | cons r rs ih =>
    cases r with
    | failNil e => simp [inAxfr]
    | failMsg m e => simp [inAxfr]
    | ok m =>
      by_cases hm : m.id = id
      · cases first with
        | true =>
          by_cases hsoa : isSOAFirst m
          · by_cases hlen : m.answer.length = 1
            · simp [inAxfr, hm, hsoa, hlen] at h ⊢
              exact ih false true h
            · by_cases hlast : isSOALast m
              · simp [inAxfr, hm, hsoa, hlen, hlast]
              · simp [inAxfr, hm, hsoa, hlen, hlast] at h ⊢
                exact ih false true h
          · simp [inAxfr, hm, hsoa]
        | false =>
          by_cases hlast : isSOALast m
          · simp [inAxfr, hm, hlast]
          · simp [inAxfr, hm, hlast] at h ⊢
            exact ih false true h
      · simp [inAxfr, hm]

/-- Helper: every returning exit of `inIxfr` (the panic path included)
closes the stream and then the connection, in that order. -/
theorem inIxfr_closes (id : Nat) (first ton : Bool) (serial : Nat)
    (rs : List ReadResult)
    (h : (inIxfr id first ton serial rs).done = true) :
    streamThenConn (inIxfr id first ton serial rs).events = true := by
  induction rs generalizing first ton serial with
  | nil => simp [inIxfr] at h
  | cons r rs ih =>
    cases r with
    | failNil e => simp [inIxfr]
    | failMsg m e => simp [inIxfr]
    | ok m =>
      by_cases hm : m.id = id
      · cases first with
        | true =>
          by_cases hone : m.answer.length = 1 ∧ isSOAFirst m
          · simp [inIxfr, hm, hone]
          · by_cases hsoa : isSOAFirst m
            · have hlen : m.answer.length ≠ 1 := fun hl => hone ⟨hl, hsoa⟩
              rcases hh : m.answer.head? with _ | r0
              · simp [inIxfr, hm, hlen, hsoa, hh]
              · rcases ha : r0.asSOA with _ | s0
                · simp [inIxfr, hm, hlen, hsoa, hh, ha]
                · rcases hd : ixfrStreamDec s0 m with _ | _ | _
                  · simp [inIxfr, hm, hlen, hsoa, hh, ha, hd]
                  · simp [inIxfr, hm, hlen, hsoa, hh, ha, hd]
                  · simp [inIxfr, hm, hlen, hsoa, hh, ha, hd] at h ⊢
                    exact ih false true s0 h
            · simp [inIxfr, hm, hone, hsoa]
        | false =>
          rcases hd : ixfrStreamDec serial m with _ | _ | _
          · simp [inIxfr, hm, hd]
          · simp [inIxfr, hm, hd]
          · simp [inIxfr, hm, hd] at h ⊢
            exact ih false true serial h
      · simp [inIxfr, hm]

/-- Helper: once the `tsigTimersOnly` flag is true, an `inAxfr` run leaves
it true. -/
theorem inAxfr_ton_mono (id : Nat) (first : Bool) (rs : List ReadResult) :
    (inAxfr id first true rs).ton = true := by
  induction rs generalizing first with
  | nil => rfl
  | cons r rs ih =>
    cases r with
    | failNil e => rfl
    | failMsg m e => rfl
    | ok m =>
      by_cases hm : m.id = id
      · cases first with
        | true =>
          by_cases hsoa : isSOAFirst m
          · by_cases hlen : m.answer.length = 1
            · simp [inAxfr, hm, hsoa, hlen, ih]
            · by_cases hlast : isSOALast m
              · simp [inAxfr, hm, hsoa, hlen, hlast]
              · simp [inAxfr, hm, hsoa, hlen, hlast, ih]
          · simp [inAxfr, hm, hsoa]
        | false =>
          by_cases hlast : isSOALast m
          · simp [inAxfr, hm, hlast]
          · simp [inAxfr, hm, hlast, ih]
      · simp [inAxfr, hm]

/-- Helper: once the `tsigTimersOnly` flag is true, an `inIxfr` run leaves
it true. -/
theorem inIxfr_ton_mono (id : Nat) (first : Bool) (serial : Nat)
    (rs : List ReadResult) :
    (inIxfr id first true serial rs).ton = true := by
  induction rs generalizing first serial with
  | nil => rfl
  | cons r rs ih =>
    cases r with
    | failNil e => rfl
    | failMsg m e => rfl
    | ok m =>
      by_cases hm : m.id = id
      · cases first with
        | true =>
          by_cases hone : m.answer.length = 1 ∧ isSOAFirst m
          · simp [inIxfr, hm, hone]
          · by_cases hsoa : isSOAFirst m
            · have hlen : m.answer.length ≠ 1 := fun hl => hone ⟨hl, hsoa⟩
              rcases hh : m.answer.head? with _ | r0
              · simp [inIxfr, hm, hlen, hsoa, hh]
              · rcases ha : r0.asSOA with _ | s0
                · simp [inIxfr, hm, hlen, hsoa, hh, ha]
                · rcases hd : ixfrStreamDec s0 m with _ | _ | _
                  · simp [inIxfr, hm, hlen, hsoa, hh, ha, hd]
                  · simp [inIxfr, hm, hlen, hsoa, hh, ha, hd]
                  · simp [inIxfr, hm, hlen, hsoa, hh, ha, hd, ih]
            · simp [inIxfr, hm, hone, hsoa]
        | false =>
          rcases hd : ixfrStreamDec serial m with _ | _ | _
          · simp [inIxfr, hm, hd]
          · simp [inIxfr, hm, hd]
          · simp [inIxfr, hm, hd, ih]
      · simp [inIxfr, hm]

/-- C3: when a read of the next reply fails in the IXFR state machine with
a nil decoded message (transport or decode failure), the engine does not
perform the AXFR read-error handling (one terminal envelope carrying the
error, records nil): it dereferences the nil reply and panics, so the
failure escapes out-of-band and no envelope at all is emitted. The same
input through the AXFR machine shows the intended behavior. -/
theorem ixfr_read_failure_panics :
    (inIxfr 1 true false 0 [.failNil .transport]).panicked = true
      ∧ emitted (inIxfr 1 true false 0 [.failNil .transport]).events = []
      ∧ (inAxfr 1 true false [.failNil .transport]).panicked = false
      ∧ emitted (inAxfr 1 true false [.failNil .transport]).events
          = [⟨[], some .transport⟩] := by
  decide

/-- C4 counterexample: on the read-failure exit path of `inAxfr`, both
closes happen but the connection is NOT closed before the envelope stream:
the deferred `close(c)` runs before the deferred `t.Close()`. -/
theorem close_order_counterexample :
    (inAxfr 1 true false [.failNil .transport]).done = true
      ∧ connThenStream (inAxfr 1 true false [.failNil .transport]).events
          = false := by
  decide

/-- C4 (amended): on every exit path of the inbound AXFR and IXFR state
machines, both the connection and the envelope stream are closed, and the
envelope stream is closed before the connection is closed. -/
theorem close_order_every_exit :
    (∀ id first ton rs, (inAxfr id first ton rs).done = true →
        streamThenConn (inAxfr id first ton rs).events = true)
      ∧ (∀ id first ton serial rs,
          (inIxfr id first ton serial rs).done = true →
            streamThenConn (inIxfr id first ton serial rs).events = true) :=
  ⟨inAxfr_closes, inIxfr_closes⟩

/-- C4 witness: the amended close-ordering property at a concrete exit. -/
theorem close_order_every_exit_witness :
    streamThenConn (inAxfr 1 true false [.failNil .transport]).events = true :=
  close_order_every_exit.1 1 true false [.failNil .transport] (by decide)

/-- C5: the `tsigTimersOnly` flag is monotone — once true it is never
reset within a session (parts 1 and 2) — and for a session started with
the flag false it becomes true with the processing of the first reply
message and stays true: for AXFR on any accepted first message (part 3),
and for IXFR on any accepted multi-record first message, the only case in
which an IXFR session continues past its first message (part 4). -/
theorem timers_only_monotone :
    (∀ id first rs, (inAxfr id first true rs).ton = true)
      ∧ (∀ id first serial rs, (inIxfr id first true serial rs).ton = true)
      ∧ (∀ id m rs, m.id = id → isSOAFirst m = true →
          (inAxfr id true false (.ok m :: rs)).ton = true)
      ∧ (∀ id m s0 t rs, m.id = id → m.answer = RR.soa s0 :: t → t ≠ [] →
          (inIxfr id true false 0 (.ok m :: rs)).ton = true) := by
  refine ⟨inAxfr_ton_mono, inIxfr_ton_mono, ?_, ?_⟩
  · intro id m rs hm hsoa
    by_cases hlen : m.answer.length = 1
    · simp [inAxfr, hm, hsoa, hlen, inAxfr_ton_mono]
    · by_cases hlast : isSOALast m
      · simp [inAxfr, hm, hsoa, hlen, hlast]
      · simp [inAxfr, hm, hsoa, hlen, hlast, inAxfr_ton_mono]
  · intro id m s0 t rs hm hans ht
    have hsoa : isSOAFirst m = true := by
      simp [isSOAFirst, hans, RR.rrtype]
    have hlen : m.answer.length ≠ 1 := by
      simp [hans]
      exact ht
    have hh : m.answer.head? = some (RR.soa s0) := by simp [hans]
    have ha : (RR.soa s0).asSOA = some s0 := rfl
    rcases hd : ixfrStreamDec s0 m with _ | _ | _
    · simp [inIxfr, hm, hsoa, hlen, hh, ha, hd]
    · simp [inIxfr, hm, hsoa, hlen, hh, ha, hd]
    · simp [inIxfr, hm, hsoa, hlen, hh, ha, hd, inIxfr_ton_mono]

/-- C5 witness: the first-message clause of the monotonicity theorem at a
concrete accepted AXFR first message. -/
theorem timers_only_monotone_witness :
    (inAxfr 1 true false [.ok ⟨1, [], [.soa 5], none⟩]).ton = true :=
  timers_only_monotone.2.2.1 1 ⟨1, [], [.soa 5], none⟩ [] rfl (by decide)

/-- C6: for a message carrying a TSIG record whose zone name has no entry
in the configured secret table, `ReadMsg` returns the unknown-key error
(`ErrSecret`), and `WriteMsg` returns the unknown-key error without
writing any bytes and without touching the session state (in particular
`tsigRequestMAC`). -/
theorem unknown_key_errors (s : Session) (tbl : List (String × String))
    (b : Bytes) (m : Msg) (tsr tsw : Tsig)
    (hs : s.secrets = some tbl)
    (hbr : (unpack b).tsig = some tsr)
    (hlr : tbl.lookup tsr.name = none)
    (hmw : m.tsig = some tsw)
    (hlw : tbl.lookup tsw.name = none) :
    (ReadMsg s b).2 = some .errSecret
      ∧ (WriteMsg s m).1 = some .errSecret
      ∧ (WriteMsg s m).2.2 = []
      ∧ (WriteMsg s m).2.1 = s := by
  refine ⟨?_, ?_⟩
  · simp [ReadMsg, hs, hbr, hlr]
  · simp [WriteMsg, hs, hmw, hlw]

/-- C6 witness: unknown-key behavior at a concrete session, message, and
byte string. -/
theorem unknown_key_errors_witness :
    (ReadMsg ⟨some [("a.", "k1")], .start, false⟩
        (.packed ⟨1, [], [], some ⟨"b."⟩⟩)).2 = some .errSecret
      ∧ (WriteMsg ⟨some [("a.", "k1")], .start, false⟩
          ⟨1, [], [], some ⟨"b."⟩⟩).1 = some .errSecret
      ∧ (WriteMsg ⟨some [("a.", "k1")], .start, false⟩
          ⟨1, [], [], some ⟨"b."⟩⟩).2.2 = []
      ∧ (WriteMsg ⟨some [("a.", "k1")], .start, false⟩
          ⟨1, [], [], some ⟨"b."⟩⟩).2.1 = ⟨some [("a.", "k1")], .start, false⟩ :=
  unknown_key_errors ⟨some [("a.", "k1")], .start, false⟩ [("a.", "k1")]
    (.packed ⟨1, [], [], some ⟨"b."⟩⟩) ⟨1, [], [], some ⟨"b."⟩⟩ ⟨"b."⟩ ⟨"b."⟩
    rfl rfl (by decide) rfl (by decide)

/-- C8: no write of the transfer engine is preceded by a write deadline:
`WriteMsg` (used for the initial query and every message written through
the authenticated channel) never performs a set-write-deadline operation,
even though it does write bytes (second part, for a session without a
secret table); by contrast every read iteration of the AXFR machine first
sets a read deadline. -/
theorem write_deadline_never_set :
    (∀ (s : Session) (m : Msg), ConnEv.setWriteDeadlineOp ∉ (WriteMsg s m).2.2)
      ∧ (∀ (s : Session) (m : Msg), (WriteMsg ⟨none, s.mac, s.ton⟩ m).2.2
          = [ConnEv.writeOp (pack m)])
      ∧ (∀ id first ton r rs,
          (inAxfr id first ton (r :: rs)).events.head?
            = some .setReadDeadline) := by
  refine ⟨?_, ?_, ?_⟩
  · intro s m
    rcases hmt : m.tsig with _ | ts
    · simp [WriteMsg, hmt]
    · rcases hsec : s.secrets with _ | tbl
      · simp [WriteMsg, hmt, hsec]
      · rcases hl : tbl.lookup ts.name with _ | secret
        · simp [WriteMsg, hmt, hsec, hl]
        · simp [WriteMsg, hmt, hsec, hl, TsigGenerate]
  · intro s m
    rcases hmt : m.tsig with _ | ts
    · simp [WriteMsg, hmt]
    · simp [WriteMsg, hmt]
  · intro id first ton r rs
    cases r with
    | failNil e => rfl
    | failMsg m e => rfl
    | ok m =>
      by_cases hm : m.id = id
      · cases first with
        | true =>
          by_cases hsoa : isSOAFirst m
          · by_cases hlen : m.answer.length = 1
            · simp [inAxfr, hm, hsoa, hlen]
            · by_cases hlast : isSOALast m
              · simp [inAxfr, hm, hsoa, hlen, hlast]
              · simp [inAxfr, hm, hsoa, hlen, hlast]
          · simp [inAxfr, hm, hsoa]
        | false =>
          by_cases hlast : isSOALast m
          · simp [inAxfr, hm, hlast]
          · simp [inAxfr, hm, hlast]
      · simp [inAxfr, hm]

/-- C9: a message carrying a TSIG record for a zone with a configured
secret, written through the authenticated channel, and read back through
a channel sharing the same chain state (`tsigRequestMAC` and
`tsigTimersOnly`), verifies with no error and is recovered with identical
answer-section content. -/
theorem tsig_roundtrip (s : Session) (tbl : List (String × String))
    (m : Msg) (ts : Tsig) (secret : String)
    (hs : s.secrets = some tbl)
    (hm : m.tsig = some ts)
    (hl : tbl.lookup ts.name = some secret) :
    (WriteMsg s m).1 = none
      ∧ ∀ b, ConnEv.writeOp b ∈ (WriteMsg s m).2.2 →
          (ReadMsg s b).2 = none
            ∧ ∃ mm, (ReadMsg s b).1 = some mm ∧ mm.answer = m.answer := by
  constructor
  · simp [WriteMsg, hs, hm, hl]
  · intro b hb
    simp [WriteMsg, hs, hm, hl, TsigGenerate] at hb
    subst hb
    refine ⟨?_, m, ?_, rfl⟩
    · simp [ReadMsg, unpack, hm, hs, hl, TsigVerify]
    · simp [ReadMsg, unpack, hm, hs, hl, TsigVerify]

/-- C9 witness: the round-trip at a concrete session and message. -/
theorem tsig_roundtrip_witness :
    (WriteMsg ⟨some [("a.", "k1")], .start, false⟩
        ⟨1, [], [.soa 5], some ⟨"a."⟩⟩).1 = none
      ∧ ∀ b, ConnEv.writeOp b
            ∈ (WriteMsg ⟨some [("a.", "k1")], .start, false⟩
                ⟨1, [], [.soa 5], some ⟨"a."⟩⟩).2.2 →
          (ReadMsg ⟨some [("a.", "k1")], .start, false⟩ b).2 = none
            ∧ ∃ mm, (ReadMsg ⟨some [("a.", "k1")], .start, false⟩ b).1 = some mm
                ∧ mm.answer = [.soa 5] :=
  tsig_roundtrip ⟨some [("a.", "k1")], .start, false⟩ [("a.", "k1")]
    ⟨1, [], [.soa 5], some ⟨"a."⟩⟩ ⟨"a."⟩ "k1" rfl rfl (by decide)

/-- Helper: with a writer that never fails, `outLoop` produces one written
message per envelope, the k-th carrying the accumulator followed by the
concatenated records of envelopes 0..k, drains the source, and ends with
all records accumulated. -/
theorem outLoop_spec (wok : Nat → Bool) (hw : ∀ i, wok i = true) :
    ∀ (envs : List Envelope) (acc : List RR) (i : Nat),
      (outLoop wok acc i envs).2.1 = true
        ∧ (outLoop wok acc i envs).2.2 = acc ++ (envs.map Envelope.rr).flatten
        ∧ (outLoop wok acc i envs).1.length = envs.length
        ∧ ∀ k, k < envs.length →
            (outLoop wok acc i envs).1[k]?
              = some (acc ++ ((envs.take (k+1)).map Envelope.rr).flatten) := by
  intro envs
  induction envs with
  | nil => intro acc i; simp [outLoop]
  | cons e es ih =>
    intro acc i
    obtain ⟨ih1, ih2, ih3, ih4⟩ := ih (acc ++ e.rr) (i+1)
    refine ⟨?_, ?_, ?_, ?_⟩
    · simp [outLoop, hw i, ih1]
    · simp [outLoop, hw i, ih2]
    · simp [outLoop, hw i, ih3]
    · intro k hk
      cases k with
      | zero => simp [outLoop, hw i]
      | succ k =>
        have hk2 : k < es.length := Nat.lt_of_succ_lt_succ (by simpa using hk)
        simp [outLoop, hw i, ih4 k hk2]

/-- C7: with a response writer that accepts every write, the outbound
engine writes exactly one message per envelope, the k-th written message's
answer section being the concatenation of the records of envelopes 0..k
(records accumulate, no size-based splitting); when the source is closed
by the producer the writer is switched to timers-only signing mode, the
accumulated answer buffer is cleared, and the engine does not close the
connection. -/
theorem out_accumulates (wok : Nat → Bool) (envs : List Envelope)
    (hw : ∀ i, wok i = true) :
    (Out wok envs).written.length = envs.length
      ∧ (∀ k, k < envs.length →
          (Out wok envs).written[k]?
            = some (((envs.take (k+1)).map Envelope.rr).flatten))
      ∧ (Out wok envs).tonSet = true
      ∧ (Out wok envs).answer = []
      ∧ (Out wok envs).connClosed = false := by
  obtain ⟨h1, h2, h3, h4⟩ := outLoop_spec wok hw envs [] 0
  refine ⟨by simp [Out, h3], ?_, by simp [Out, h1], by simp [Out, h1], rfl⟩
  intro k hk
  simpa [Out] using h4 k hk

/-- C7 witness: the outbound engine at a concrete two-envelope source with
a concrete all-accepting writer. -/
theorem out_accumulates_witness :
    (Out (fun _ => true) [⟨[.soa 5], none⟩, ⟨[.other 1], none⟩]).written.length = 2
      ∧ (∀ k, k < 2 →
          (Out (fun _ => true)
              [⟨[.soa 5], none⟩, ⟨[.other 1], none⟩]).written[k]?
            = some ((((([⟨[.soa 5], none⟩, ⟨[.other 1], none⟩] : List Envelope)).take
                (k+1)).map Envelope.rr).flatten))
      ∧ (Out (fun _ => true) [⟨[.soa 5], none⟩, ⟨[.other 1], none⟩]).tonSet = true
      ∧ (Out (fun _ => true) [⟨[.soa 5], none⟩, ⟨[.other 1], none⟩]).answer = []
      ∧ (Out (fun _ => true) [⟨[.soa 5], none⟩, ⟨[.other 1], none⟩]).connClosed
          = false :=
  out_accumulates (fun _ => true) [⟨[.soa 5], none⟩, ⟨[.other 1], none⟩]
    (fun _ => rfl)

/-- Helper: `inAxfr` in streaming state (`first = false`), on a run of
successful well-identified replies whose first trailing-SOA message is at
index `k`, emits one error-free envelope per message up to and including
index `k` and then stops. -/
theorem inAxfr_stream_spec (id : Nat) (ms : List Msg) (k : Nat)
    (hid : ∀ m ∈ ms, m.id = id)
    (hstop : axfrStreamStopsAt ms k = true)
    (hmin : ∀ j, j < k → axfrStreamStopsAt ms j = false) :
    emitted (inAxfr id false true (ms.map .ok)).events
        = (ms.take (k+1)).map (fun m => Envelope.mk m.answer none)
      ∧ (inAxfr id false true (ms.map .ok)).done = true
      ∧ (inAxfr id false true (ms.map .ok)).panicked = false := by
  induction ms generalizing k with
  | nil => simp [axfrStreamStopsAt] at hstop
  | cons m tl ih =>
    have hm : m.id = id := hid m (List.mem_cons_self m tl)
    have hid2 : ∀ x ∈ tl, x.id = id := fun x hx => hid x (List.mem_cons_of_mem m hx)
    cases k with
    | zero =>
      have hlast : isSOALast m = true := by
        simpa [axfrStreamStopsAt] using hstop
      refine ⟨?_, ?_, ?_⟩ <;> simp [inAxfr, hm, hlast]
    | succ j =>
      have hlast : isSOALast m = false := by
        simpa [axfrStreamStopsAt] using hmin 0 (Nat.succ_pos j)
      have hstop2 : axfrStreamStopsAt tl j = true := by
        simpa [axfrStreamStopsAt] using hstop
      have hmin2 : ∀ i, i < j → axfrStreamStopsAt tl i = false := by
        intro i hi
        simpa [axfrStreamStopsAt] using hmin (i+1) (Nat.succ_lt_succ hi)
      obtain ⟨e1, e2, e3⟩ := ih j hid2 hstop2 hmin2
      refine ⟨?_, ?_, ?_⟩ <;> simp [inAxfr, hm, hlast, e1, e2, e3]

/-- Helper: the full AXFR termination test after the first message reduces
to the streaming test. -/
theorem axfrStopsAt_succ (m : Msg) (ms : List Msg) (j : Nat) :
    axfrStopsAt (m :: ms) (j+1) = axfrStreamStopsAt ms j := by
  rcases h : ms[j]? with _ | x <;> simp [axfrStopsAt, axfrStreamStopsAt, h]

/-- C1: AXFR inbound state machine: on a reply sequence of successful
reads all carrying the query's id, whose first message opens with a SOA
record, and whose first terminating message — trailing-SOA, where a
single-record first message is guarded and never terminates — is at index
`k`, the engine emits exactly one envelope per message in arrival order
for messages 0..k, all with no error, and stops on message `k` (a first
message with more than one record may itself be the terminal one). -/
theorem axfr_engine_envelopes (id : Nat) (m0 : Msg) (rest : List Msg) (k : Nat)
    (hid : ∀ m ∈ m0 :: rest, m.id = id)
    (hsoa : isSOAFirst m0 = true)
    (hstop : axfrStopsAt (m0 :: rest) k = true)
    (hmin : ∀ j, j < k → axfrStopsAt (m0 :: rest) j = false) :
    emitted (inAxfr id true false ((m0 :: rest).map .ok)).events
        = ((m0 :: rest).take (k+1)).map (fun m => Envelope.mk m.answer none)
      ∧ (inAxfr id true false ((m0 :: rest).map .ok)).done = true
      ∧ (inAxfr id true false ((m0 :: rest).map .ok)).panicked = false := by
  have hm : m0.id = id := hid m0 (List.mem_cons_self m0 rest)
  have hid2 : ∀ x ∈ rest, x.id = id := fun x hx => hid x (List.mem_cons_of_mem m0 hx)
  by_cases hlen : m0.answer.length = 1
  · have h0 : axfrStopsAt (m0 :: rest) 0 = false := by
      simp [axfrStopsAt, hlen]
    cases k with
    | zero => simp [h0] at hstop
    | succ j =>
      have hstop2 : axfrStreamStopsAt rest j = true := by
        rw [← axfrStopsAt_succ m0]; exact hstop
      have hmin2 : ∀ i, i < j → axfrStreamStopsAt rest i = false := by
        intro i hi
        rw [← axfrStopsAt_succ m0]
        exact hmin (i+1) (Nat.succ_lt_succ hi)
      obtain ⟨e1, e2, e3⟩ := inAxfr_stream_spec id rest j hid2 hstop2 hmin2
      refine ⟨?_, ?_, ?_⟩ <;> simp [inAxfr, hm, hsoa, hlen, e1, e2, e3]
  · by_cases hlast : isSOALast m0
    · have h0 : axfrStopsAt (m0 :: rest) 0 = true := by
        simp [axfrStopsAt, hlast, hlen]
      cases k with
      | succ j => simp [hmin 0 (Nat.succ_pos j)] at h0
      | zero =>
        refine ⟨?_, ?_, ?_⟩ <;> simp [inAxfr, hm, hsoa, hlen, hlast]
    · have h0 : axfrStopsAt (m0 :: rest) 0 = false := by
        simp [axfrStopsAt, hlast]
      cases k with
      | zero => simp [h0] at hstop
      | succ j =>
        have hstop2 : axfrStreamStopsAt rest j = true := by
          rw [← axfrStopsAt_succ m0]; exact hstop
        have hmin2 : ∀ i, i < j → axfrStreamStopsAt rest i = false := by
          intro i hi
          rw [← axfrStopsAt_succ m0]
          exact hmin (i+1) (Nat.succ_lt_succ hi)
        obtain ⟨e1, e2, e3⟩ := inAxfr_stream_spec id rest j hid2 hstop2 hmin2
        refine ⟨?_, ?_, ?_⟩ <;> simp [inAxfr, hm, hsoa, hlen, hlast, e1, e2, e3]

/-- C1 witness: the regression case (first message `[SOA]`, second
`[r1, SOA]`, two envelopes) and the single-message case
(`[SOA, r1, r2, SOA]`, one terminal envelope with all four records). -/
theorem axfr_engine_envelopes_witness :
    emitted (inAxfr 7 true false
        [.ok ⟨7, [], [.soa 5], none⟩,
         .ok ⟨7, [], [.other 1, .soa 5], none⟩]).events
      = [⟨[.soa 5], none⟩, ⟨[.other 1, .soa 5], none⟩]
    ∧ emitted (inAxfr 7 true false
        [.ok ⟨7, [], [.soa 5, .other 1, .other 2, .soa 5], none⟩]).events
      = [⟨[.soa 5, .other 1, .other 2, .soa 5], none⟩] := by
  constructor
  · simpa using (axfr_engine_envelopes 7 ⟨7, [], [.soa 5], none⟩
      [⟨7, [], [.other 1, .soa 5], none⟩] 1
      (by decide) (by decide) (by decide) (by decide)).1
  · simpa using (axfr_engine_envelopes 7 ⟨7, [], [.soa 5, .other 1, .other 2, .soa 5], none⟩
      [] 0 (by decide) (by decide) (by decide) (by decide)).1

/-- Helper: on a nonempty answer section the IXFR streaming decision never
panics and terminates exactly when the trailing record is a SOA with the
recorded serial. -/
theorem ixfrStreamDec_nonempty (s0 : Nat) (m : Msg) (h : m.answer ≠ []) :
    ixfrStreamDec s0 m
      = (if ixfrLastMatches s0 m then StreamDec.terminal else .goOn) := by
  rcases hr : m.answer.getLast? with _ | rl
  · exact absurd (List.getLast?_eq_none_iff.mp hr) h
  · rcases ha : rl.asSOA with _ | s
    · simp [ixfrStreamDec, ixfrLastMatches, hr, ha]
    · by_cases hs : s = s0 <;>
        simp [ixfrStreamDec, ixfrLastMatches, hr, ha, hs]

/-- Helper: `inIxfr` in streaming state (`first = false`) with recorded
serial `s0`, on a run of successful well-identified nonempty replies whose
first message trailing in a SOA of serial `s0` is at index `k`, emits one
error-free envelope per message up to and including index `k` and then
stops. -/
theorem inIxfr_stream_spec (id s0 : Nat) (ms : List Msg) (k : Nat)
    (hid : ∀ m ∈ ms, m.id = id)
    (hne : ∀ m ∈ ms, m.answer ≠ [])
    (hstop : ixfrStreamStopsAt s0 ms k = true)
    (hmin : ∀ j, j < k → ixfrStreamStopsAt s0 ms j = false) :
    emitted (inIxfr id false true s0 (ms.map .ok)).events
        = (ms.take (k+1)).map (fun m => Envelope.mk m.answer none)
      ∧ (inIxfr id false true s0 (ms.map .ok)).done = true
      ∧ (inIxfr id false true s0 (ms.map .ok)).panicked = false := by
  induction ms generalizing k with
  | nil => simp [ixfrStreamStopsAt] at hstop
  | cons m tl ih =>
    have hm : m.id = id := hid m (List.mem_cons_self m tl)
    have hmne : m.answer ≠ [] := hne m (List.mem_cons_self m tl)
    have hid2 : ∀ x ∈ tl, x.id = id := fun x hx => hid x (List.mem_cons_of_mem m hx)
    have hne2 : ∀ x ∈ tl, x.answer ≠ [] := fun x hx => hne x (List.mem_cons_of_mem m hx)
    cases k with
    | zero =>
      have hlm : ixfrLastMatches s0 m = true := by
        simpa [ixfrStreamStopsAt] using hstop
      have hd : ixfrStreamDec s0 m = .terminal := by
        simp [ixfrStreamDec_nonempty s0 m hmne, hlm]
      refine ⟨?_, ?_, ?_⟩ <;> simp [inIxfr, hm, hd]
    | succ j =>
      have hlm : ixfrLastMatches s0 m = false := by
        simpa [ixfrStreamStopsAt] using hmin 0 (Nat.succ_pos j)
      have hd : ixfrStreamDec s0 m = .goOn := by
        simp [ixfrStreamDec_nonempty s0 m hmne, hlm]
      have hstop2 : ixfrStreamStopsAt s0 tl j = true := by
        simpa [ixfrStreamStopsAt] using hstop
      have hmin2 : ∀ i, i < j → ixfrStreamStopsAt s0 tl i = false := by
        intro i hi
        simpa [ixfrStreamStopsAt] using hmin (i+1) (Nat.succ_lt_succ hi)
      obtain ⟨e1, e2, e3⟩ := ih j hid2 hne2 hstop2 hmin2
      refine ⟨?_, ?_, ?_⟩ <;> simp [inIxfr, hm, hd, e1, e2, e3]

/-- Helper: the full IXFR termination test after the first message reduces
to the streaming test. -/
theorem ixfrStopsAt_succ (s0 : Nat) (m : Msg) (ms : List Msg) (j : Nat) :
    ixfrStopsAt s0 (m :: ms) (j+1) = ixfrStreamStopsAt s0 ms j := by
  rcases h : ms[j]? with _ | x <;> simp [ixfrStopsAt, ixfrStreamStopsAt, h]

/-- C2: IXFR inbound state machine: on a reply sequence of successful
reads all carrying the query's id, all with nonempty answer sections, the
first opening with a concrete SOA of serial `s0`, and whose first
terminating message — a single-record first message (the no-change case),
or any message whose trailing record is a SOA with serial `s0` — is at
index `k`, the engine emits one error-free envelope per message in
arrival order for messages 0..k, the last one terminal, and stops there
regardless of how many non-terminating messages preceded it. -/
theorem ixfr_engine_envelopes (id s0 : Nat) (m0 : Msg) (t0 : List RR)
    (rest : List Msg) (k : Nat)
    (hans : m0.answer = RR.soa s0 :: t0)
    (hid : ∀ m ∈ m0 :: rest, m.id = id)
    (hne : ∀ m ∈ rest, m.answer ≠ [])
    (hstop : ixfrStopsAt s0 (m0 :: rest) k = true)
    (hmin : ∀ j, j < k → ixfrStopsAt s0 (m0 :: rest) j = false) :
    emitted (inIxfr id true false 0 ((m0 :: rest).map .ok)).events
        = ((m0 :: rest).take (k+1)).map (fun m => Envelope.mk m.answer none)
      ∧ (inIxfr id true false 0 ((m0 :: rest).map .ok)).done = true
      ∧ (inIxfr id true false 0 ((m0 :: rest).map .ok)).panicked = false := by
  have hm : m0.id = id := hid m0 (List.mem_cons_self m0 rest)
  have hid2 : ∀ x ∈ rest, x.id = id := fun x hx => hid x (List.mem_cons_of_mem m0 hx)
  have hsoa : isSOAFirst m0 = true := by simp [isSOAFirst, hans, RR.rrtype]
  have hh : m0.answer.head? = some (RR.soa s0) := by simp [hans]
  rcases ht0 : t0 with _ | ⟨r1, t1⟩
  · -- single-record first message: the no-change case, k = 0
    have hlen : m0.answer.length = 1 := by simp [hans, ht0]
    have h0 : ixfrStopsAt s0 (m0 :: rest) 0 = true := by
      simp [ixfrStopsAt, hlen]
    cases k with
    | succ j => simp [hmin 0 (Nat.succ_pos j)] at h0
    | zero =>
      refine ⟨?_, ?_, ?_⟩ <;> simp [inIxfr, hm, hsoa, hlen]
  · -- multi-record first message: record the serial and fall through
    have hlen : m0.answer.length ≠ 1 := by simp [hans, ht0]
    have hmne : m0.answer ≠ [] := by simp [hans]
    by_cases hlm : ixfrLastMatches s0 m0
    · -- the first message itself trails in the opening serial: k = 0
      have hd : ixfrStreamDec s0 m0 = .terminal := by
        simp [ixfrStreamDec_nonempty s0 m0 hmne, hlm]
      have h0 : ixfrStopsAt s0 (m0 :: rest) 0 = true := by
        simp [ixfrStopsAt, hlm]
      cases k with
      | succ j => simp [hmin 0 (Nat.succ_pos j)] at h0
      | zero =>
        refine ⟨?_, ?_, ?_⟩ <;> simp [inIxfr, hm, hsoa, hlen, hh, RR.asSOA, hd]
    · have hd : ixfrStreamDec s0 m0 = .goOn := by
        simp [ixfrStreamDec_nonempty s0 m0 hmne, hlm]
      have h0 : ixfrStopsAt s0 (m0 :: rest) 0 = false := by
        simp [ixfrStopsAt, hlen, hlm]
      cases k with
      | zero => simp [h0] at hstop
      | succ j =>
        have hstop2 : ixfrStreamStopsAt s0 rest j = true := by
          rw [← ixfrStopsAt_succ s0 m0]; exact hstop
        have hmin2 : ∀ i, i < j → ixfrStreamStopsAt s0 rest i = false := by
          intro i hi
          rw [← ixfrStopsAt_succ s0 m0]
          exact hmin (i+1) (Nat.succ_lt_succ hi)
        obtain ⟨e1, e2, e3⟩ := inIxfr_stream_spec id s0 rest j hid2 hne hstop2 hmin2
        refine ⟨?_, ?_, ?_⟩ <;>
          simp [inIxfr, hm, hsoa, hlen, hh, RR.asSOA, hd, e1, e2, e3]

/-- C2 witness: first message `[SOA serial=5, d1]`, then a non-terminating
diff message, then the terminating `[d2, SOA serial=5]`: three envelopes,
terminating exactly on the trailing-SOA-serial-5 message. -/
theorem ixfr_engine_envelopes_witness :
    emitted (inIxfr 9 true false 0
        [.ok ⟨9, [], [.soa 5, .other 1], none⟩,
         .ok ⟨9, [], [.other 2], none⟩,
         .ok ⟨9, [], [.other 3, .soa 5], none⟩]).events
      = [⟨[.soa 5, .other 1], none⟩, ⟨[.other 2], none⟩,
         ⟨[.other 3, .soa 5], none⟩]
    ∧ emitted (inIxfr 9 true false 0 [.ok ⟨9, [], [.soa 5], none⟩]).events
      = [⟨[.soa 5], none⟩] := by
  constructor
  · simpa using (ixfr_engine_envelopes 9 5 ⟨9, [], [.soa 5, .other 1], none⟩
      [.other 1] [⟨9, [], [.other 2], none⟩, ⟨9, [], [.other 3, .soa 5], none⟩] 2
      rfl (by decide) (by decide) (by decide) (by decide)).1
  · simpa using (ixfr_engine_envelopes 9 5 ⟨9, [], [.soa 5], none⟩
      [] [] 0 rfl (by decide) (by decide) (by decide) (by decide)).1

/-- C2 counterexample: a reply sequence with matching ids whose first
message opens with SOA serial 5 and whose stop point (trailing SOA with
serial 5) is at index 2, but whose middle message has an empty answer
section. The middle message is not a stop point, so the claim requires it
to be emitted as a non-terminal error-free envelope; instead the machine
panics indexing `in.Answer[len(in.Answer)-1]` on the empty slice, emits
only the first envelope, and the terminal envelope never appears. -/
theorem ixfr_empty_answer_counterexample :
    (inIxfr 9 true false 0
        [.ok ⟨9, [], [.soa 5, .other 1], none⟩,
         .ok ⟨9, [], [], none⟩,
         .ok ⟨9, [], [.other 2, .soa 5], none⟩]).panicked = true
      ∧ emitted (inIxfr 9 true false 0
          [.ok ⟨9, [], [.soa 5, .other 1], none⟩,
           .ok ⟨9, [], [], none⟩,
           .ok ⟨9, [], [.other 2, .soa 5], none⟩]).events
        = [⟨[.soa 5, .other 1], none⟩]
      ∧ ixfrStopsAt 5
          [⟨9, [], [.soa 5, .other 1], none⟩, ⟨9, [], [], none⟩,
           ⟨9, [], [.other 2, .soa 5], none⟩] 1 = false
      ∧ ixfrStopsAt 5
          [⟨9, [], [.soa 5, .other 1], none⟩, ⟨9, [], [], none⟩,
           ⟨9, [], [.other 2, .soa 5], none⟩] 2 = true := by
  decide

/-- C10: when the query's question type is neither AXFR nor IXFR and dial
and initial write succeed, `In` returns a nil error together with a
stream whose background behavior emits nothing: whatever the peer sends,
no envelope is emitted, neither the stream nor the connection is closed,
and no state machine runs. -/
theorem non_transfer_qtype_idle (ton0 : Bool) (q : Msg) (qt : Nat)
    (reads : List ReadResult)
    (hq : q.question.head? = some qt)
    (h1 : qt ≠ typeAXFR) (h2 : qt ≠ typeIXFR) :
    In ton0 q true true reads = (none, some ⟨[], ton0, false, false⟩) := by
  simp [In, inRun, hq, h1, h2]

/-- C10 witness: a concrete non-transfer query type (an A query) leaves
the stream idle. -/
theorem non_transfer_qtype_idle_witness :
    In false ⟨1, [1], [], none⟩ true true [.ok ⟨1, [], [.soa 5], none⟩]
      = (none, some ⟨[], false, false, false⟩) :=
  non_transfer_qtype_idle false ⟨1, [1], [], none⟩ 1
    [.ok ⟨1, [], [.soa 5], none⟩] rfl (by decide) (by decide)

